import Mathlib

/-!
Verification development for the Origin Brain Trainer MCP server
(`server.js`: Express + SSE channel registry + JSON-RPC dispatch + file tools).

The JavaScript source is shallowly embedded:
* paths are lists of segments; `path.join` with `..`/`.` resolution is `joinPath`;
* the filesystem (the `uploads` storage backend and everything around it) is a
  list of `(path, size)` pairs;
* the module-level mutable state (`sseClients` map, heartbeat interval timers,
  filesystem, delivered SSE events) is an explicit `ServerState` record;
* an SSE transport handle (`res`) is abstracted by a single bit `writeOk`
  saying whether `res.write` succeeds or throws;
* fallible JS code (`throw` / try-catch) becomes `Except`;
* `setInterval` timers are modelled as handles drawn from a fresh counter,
  with `liveTimers` the set of currently scheduled (not-yet-cleared) timers.
-/

set_option autoImplicit false

namespace MCP

/-! ## Paths and the filesystem -/

/-- A filesystem path as a list of segments (absolute, rooted at the fs root). -/
abbrev Path := List String

/-- Split a string on `'/'` (auxiliary, structurally recursive over the chars). -/
def splitSegsAux : List Char → List Char → List String
  | [], cur => [String.mk cur.reverse]
  | c :: rest, cur =>
    if c = '/' then String.mk cur.reverse :: splitSegsAux rest []
    else splitSegsAux rest (c :: cur)

/-- Split a string into `'/'`-separated segments, as `path.join` does before
normalizing. -/
def splitPath (s : String) : List String :=
  splitSegsAux s.toList []

/-- One step of Node `path.join` normalization: empty and `"."` segments are
dropped, `".."` removes the last segment of the stack (saturating at the
root for an absolute base), anything else is appended. -/
def applySeg (stack : List String) (seg : String) : List String :=
  if seg = "" ∨ seg = "." then stack
  else if seg = ".." then stack.dropLast
  else stack ++ [seg]

/-- Embeds `path.join(base, filename)` for an absolute `base`: append `filename`'s
segments and normalize.  This is what `deleteFile` and `listFiles` use to turn
a file name into a concrete filesystem path. -/
def joinPath (base : Path) (filename : String) : Path :=
  (splitPath filename).foldl applySeg base

/-- Whether `p` lies under directory `dir` (i.e. `dir` is an initial segment). -/
def isUnder (dir p : Path) : Bool :=
  p.take dir.length == dir

/-- The filesystem: the set of existing files with their byte sizes. -/
abbrev Fs := List (Path × Nat)

/-- The `readdirSync(dir)` view of one path: the name of `p` if it is an immediate
child of `dir`, else `none`. -/
def childName (dir : Path) (p : Path) : Option String :=
  match p.getLast? with
  | none => none
  | some n => if p.dropLast = dir then some n else none

/-! ## SSE payloads, channels and the server state -/

/-- The JSON payloads the server pushes over SSE, restricted to the fields the
claims inspect (timestamps are wall-clock strings and are not modelled). -/
inductive SSEData where
  | connected (clientId : Nat)
  | heartbeat
  | fileDeleted (filename : String)
  | upload (fileCount : Nat)
  | toolResult (tool : String)
deriving Repr, DecidableEq

/-- One registry entry: the value stored in `sseClients` for a client id.
The transport handle `res` is abstracted by `writeOk` (whether `res.write`
succeeds); `timer` is the handle of the `setInterval` heartbeat. -/
structure Client where
  timer : Nat
  writeOk : Bool
deriving Repr, DecidableEq

/-- A delivered SSE event: (client id, event name, payload). -/
abbrev SSEEvent := Nat × String × SSEData

/-- The module-level mutable state of `server.js`. -/
structure ServerState where
  /-- `const uploadsDir = path.join(__dirname, "uploads")`. -/
  uploadsDir : Path
  /-- The filesystem contents. -/
  fs : Fs
  /-- `const sseClients = new Map()` — insertion-ordered, keys unique by
  `Map` semantics (modelled as an association list mutated by `mapSet`). -/
  sseClients : List (Nat × Client)
  /-- Handles of `setInterval` timers that are scheduled and not yet cleared. -/
  liveTimers : List Nat
  /-- Fresh-handle counter for new timers. -/
  nextTimer : Nat
  /-- The `req.on("close", ...)` handlers currently registered, each capturing
  the `clientId` and `heartbeat` local variables of its connection. -/
  handlers : List (Nat × Nat)
  /-- Log of successfully written SSE events. -/
  events : List SSEEvent
deriving Repr, DecidableEq

/-- Embeds `Map.prototype.set`: overwrite the entry in place if the key exists,
otherwise append. -/
def mapSet (m : List (Nat × Client)) (k : Nat) (v : Client) : List (Nat × Client) :=
  if m.any (fun p => p.1 = k) then
    m.map (fun p => if p.1 = k then (k, v) else p)
  else m ++ [(k, v)]

/-! ## SSE primitives (`sendSSE`, `broadcastSSE`) -/

/-- Embeds `res.write(...)`: succeeds or throws depending on the transport's health. -/
def resWrite (writeOk : Bool) : Except String Unit :=
  if writeOk then .ok () else .error "EPIPE: broken pipe"

/-- Outcome of a `sendSSE` call: whether the event reached the client, and
whether the call propagated an exception to its caller. -/
structure SendResult where
  delivered : Bool
  threw : Bool
deriving Repr, DecidableEq

/-- Embeds `function sendSSE(res, event, data)`: two `res.write` calls wrapped in
`try { ... } catch (err) { console.error(...) }` — the error is logged and
swallowed, so `sendSSE` itself never throws. -/
def sendSSE (writeOk : Bool) : SendResult :=
  match resWrite writeOk, resWrite writeOk with
  | .ok _, .ok _ => { delivered := true, threw := false }
  | _, _ => { delivered := false, threw := false }

theorem sendSSE_delivered (b : Bool) : (sendSSE b).delivered = b := by
  cases b <;> rfl

theorem sendSSE_threw (b : Bool) : (sendSSE b).threw = false := by
  cases b <;> rfl

/-- The body of `broadcastSSE`'s `forEach` callback:
`try { sendSSE(client.res, event, data) } catch (err) { clearInterval(client.heartbeat);
sseClients.delete(clientId); }`.  The catch branch clears the heartbeat and
removes the registry entry, but only fires if `sendSSE` throws. -/
def broadcastClient (acc : ServerState) (cid : Nat) (c : Client)
    (event : String) (data : SSEData) : ServerState :=
  let r := sendSSE c.writeOk
  let acc1 := if r.delivered then
      { acc with events := acc.events ++ [(cid, event, data)] }
    else acc
  if r.threw then
    { acc1 with
      liveTimers := acc1.liveTimers.filter (fun t => t ≠ c.timer),
      sseClients := acc1.sseClients.filter (fun p => p.1 ≠ cid) }
  else acc1

/-- Embeds `function broadcastSSE(event, data)`: iterate over every registered client
and `sendSSE` to each inside the pruning try-catch. -/
def broadcastSSE (st : ServerState) (event : String) (data : SSEData) : ServerState :=
  st.sseClients.foldl (fun acc p => broadcastClient acc p.1 p.2 event data) st

/-- Embeds `sseClients.has(clientId)`. -/
def hasClient (st : ServerState) (cid : Nat) : Bool :=
  st.sseClients.any (fun p => p.1 = cid)

/-- Embeds `sseClients.get(clientId)`. -/
def lookupClient (st : ServerState) (cid : Nat) : Option Client :=
  (st.sseClients.find? (fun p => p.1 = cid)).map Prod.snd

/-- Embeds `sendSSE(sseClients.get(clientId).res, event, data)` for a single client. -/
def sendToClient (st : ServerState) (cid : Nat) (event : String) (data : SSEData) :
    ServerState :=
  match lookupClient st cid with
  | none => st
  | some c =>
    if (sendSSE c.writeOk).delivered then
      { st with events := st.events ++ [(cid, event, data)] }
    else st

/-! ## Channel lifecycle (`GET /sse` / `GET /mcp` handler, close, SIGTERM) -/

/-- The `handleMcpSse` / `app.get("/sse")` handler: assign
`clientId = Date.now()` (the request's millisecond timestamp `now`), send the
`connected` event, start the heartbeat `setInterval`, register the client in
`sseClients`, and register the `req.on("close")` handler capturing
`(clientId, heartbeat)`.  Returns the assigned id and the new state. -/
def openChannel (st : ServerState) (now : Nat) (writeOk : Bool) :
    Nat × ServerState :=
  let clientId := now
  let r := sendSSE writeOk
  let connectedLog := if r.delivered then
      [(clientId, "connected", SSEData.connected clientId)]
    else []
  (clientId,
    { st with
      events := st.events ++ connectedLog,
      sseClients := mapSet st.sseClients clientId
        { timer := st.nextTimer, writeOk := writeOk },
      liveTimers := st.liveTimers ++ [st.nextTimer],
      nextTimer := st.nextTimer + 1,
      handlers := st.handlers ++ [(clientId, st.nextTimer)] })

/-- Firing the `req.on("close")` handler of the connection that captured
`(cid, t)`: `clearInterval(heartbeat); sseClients.delete(clientId)`.  A handler
fires at most once; a `(cid, t)` pair that was never registered does nothing. -/
def disconnectEv (st : ServerState) (cid t : Nat) : ServerState :=
  if (cid, t) ∈ st.handlers then
    { st with
      liveTimers := st.liveTimers.filter (fun x => x ≠ t),
      sseClients := st.sseClients.filter (fun p => p.1 ≠ cid),
      handlers := st.handlers.filter (fun h => h ≠ (cid, t)) }
  else st

/-- The `process.on("SIGTERM")` handler just before `process.exit(0)`:
`sseClients.forEach(client => { clearInterval(client.heartbeat); client.res.end(); })`
— every timer referenced by a registry entry is cleared (timers not referenced
by any entry are not touched). -/
def sigtermHandler (st : ServerState) : ServerState :=
  { st with
    liveTimers := st.liveTimers.filter
      (fun t => ¬ st.sseClients.any (fun p => p.2.timer = t)) }

/-! ## File tools (`formatFileSize`, `listFiles`, `deleteFile`, `executeTool`) -/

/-- Embeds `Math.floor(Math.log(bytes) / Math.log(1024))` for `bytes ≥ 1`: the
base-1024 floor logarithm, computed by repeated division (fuel-recursive so it
evaluates by `decide`). -/
def unitIndexAux : Nat → Nat → Nat
  | 0, _ => 0
  | fuel + 1, b => if b < 1024 then 0 else unitIndexAux fuel (b / 1024) + 1

/-- Base-1024 floor logarithm of `b` (for `b ≥ 1`). -/
def unitIndex (b : Nat) : Nat :=
  unitIndexAux b b

/-- JS `Math.round(num / den)` for nonnegative arguments: round half up,
`⌊num/den + 1/2⌋ = ⌊(2*num + den) / (2*den)⌋`. -/
def jsRoundNat (num den : Nat) : Nat :=
  (2 * num + den) / (2 * den)

/-- Render the exact value `c / 100` the way JS prints
`Math.round(x * 100) / 100` (no trailing zeros, at most two decimals). -/
def renderCenti (c : Nat) : String :=
  let ip := c / 100
  let fr := c % 100
  if fr = 0 then toString ip
  else if fr % 10 = 0 then toString ip ++ "." ++ toString (fr / 10)
  else if fr < 10 then toString ip ++ ".0" ++ toString fr
  else toString ip ++ "." ++ toString fr

/-- The unit names array `const sizes = ["Bytes", "KB", "MB", "GB"]`. -/
def sizesArr : List String := ["Bytes", "KB", "MB", "GB"]

/-- Embeds `function formatFileSize(bytes)`: `0` maps to `"0 Bytes"`, otherwise
`Math.round((bytes / Math.pow(1024, i)) * 100) / 100 + " " + sizes[i]` with
`i = Math.floor(Math.log(bytes)/Math.log(1024))` (an out-of-range index reads
`undefined` from the array, as in JS). -/
def formatFileSize (bytes : Nat) : String :=
  if bytes = 0 then "0 Bytes"
  else
    let i := unitIndex bytes
    renderCenti (jsRoundNat (bytes * 100) (1024 ^ i)) ++ " " ++ sizesArr.getD i "undefined"

/-- One entry of `listFiles`'s result (`created`/`modified` timestamps are
wall-clock values and are not modelled). -/
structure FileEntry where
  name : String
  size : Nat
  sizeFormatted : String
deriving Repr, DecidableEq

/-- The result object of `listFiles` (`success`/`timestamp` fields omitted:
the function always returns `success: true`). -/
structure ListResult where
  count : Nat
  files : List FileEntry
deriving Repr, DecidableEq

/-- Embeds `async function listFiles()`: `readdirSync(uploadsDir)`, then for each name
`statSync` and build `{name, size, sizeFormatted, ...}`. -/
def listFiles (st : ServerState) : ListResult :=
  let fileDetails := st.fs.filterMap (fun e =>
    (childName st.uploadsDir e.1).map (fun n =>
      { name := n, size := e.2, sizeFormatted := formatFileSize e.2 : FileEntry }))
  { count := fileDetails.length, files := fileDetails }

/-- Embeds `async function deleteFile(filename)`:
`if (!filename) throw new Error("filename is required")` (falsy: absent or
empty); `filepath = path.join(uploadsDir, filename)`; if `existsSync(filepath)`
then `unlinkSync` it, `broadcastSSE("file_deleted", {filename, ...})` and
return the success message, else `throw new Error("File not found")`. -/
def deleteFile (st : ServerState) (filename : Option String) :
    Except String (String × ServerState) :=
  match filename with
  | none => .error "filename is required"
  | some fn =>
    if fn = "" then .error "filename is required"
    else
      let filepath := joinPath st.uploadsDir fn
      if st.fs.any (fun e => e.1 = filepath) then
        let st1 := { st with fs := st.fs.filter (fun e => e.1 ≠ filepath) }
        let st2 := broadcastSSE st1 "file_deleted" (SSEData.fileDeleted fn)
        .ok ("File " ++ fn ++ " deleted successfully", st2)
      else .error "File not found"

/-- Embeds `args?.instructions || "No instructions provided"` (JS `||`: empty string
is falsy). -/
def orDefault (s : Option String) (d : String) : String :=
  match s with
  | none => d
  | some v => if v = "" then d else v

/-- The plain result object returned by `executeTool`. -/
inductive ToolResult where
  | listing (r : ListResult)
  | deleted (message : String)
  | uploadAck (instructions : String)
deriving Repr, DecidableEq

/-- Embeds `async function executeTool(name, args)`: dispatch on the tool name;
the default branch throws `` `Unknown tool: ${name}` ``. -/
def executeTool (st : ServerState) (name : String)
    (argFilename argInstructions : Option String) :
    Except String (ToolResult × ServerState) :=
  if name = "list_files" then .ok (.listing (listFiles st), st)
  else if name = "delete_file" then
    (deleteFile st argFilename).map (fun r => (.deleted r.1, r.2))
  else if name = "upload_file" then
    .ok (.uploadAck (orDefault argInstructions "No instructions provided"), st)
  else .error ("Unknown tool: " ++ name)

/-! ## JSON-RPC dispatch (`POST /message` / `POST /mcp`) -/

/-- The parsed JSON-RPC request body.  `method = ""` models a falsy
(absent or empty) `method`; `paramsName` etc. are the fields destructured from
`rpc.params || {}` (absent fields are `none`). -/
structure RpcRequest where
  jsonrpc : String
  id : Option Int
  method : String
  paramsName : Option String
  paramsArgFilename : Option String
  paramsArgInstructions : Option String
deriving Repr, DecidableEq

/-- A JSON-RPC error object. -/
structure RpcError where
  code : Int
  message : String
deriving Repr, DecidableEq

/-- The `result` payloads the dispatcher can produce. -/
inductive RpcResult where
  | initRes
  | toolsListRes
  | toolCallContent (r : ToolResult)
deriving Repr, DecidableEq

/-- The JSON-RPC response (`jsonrpc: "2.0"` tag implicit; `status` is the HTTP
status code). -/
structure RpcResponse where
  status : Nat
  id : Option Int
  result : Option RpcResult
  error : Option RpcError
deriving Repr, DecidableEq

/-- Embeds `if (clientId && sseClients.has(clientId)) sendSSE(..., "tool_result", ...)`
after a successful tool call. -/
def notifyOrigin (st : ServerState) (clientId : Option Nat) (tool : String) :
    ServerState :=
  match clientId with
  | none => st
  | some cid =>
    if cid ≠ 0 ∧ hasClient st cid then
      sendToClient st cid "tool_result" (SSEData.toolResult tool)
    else st

/-- Embeds `async function handleMcpMessage(req, res)` (identically, the
`app.post("/message")` handler of `server.js`): validate the envelope, route
`initialize` / `tools/list` / `tools/call`, catch executor errors as a
`-32000` response (`err.message || "Server error"`). `rpc = none` models a
falsy request body. -/
def handleMcpMessage (st : ServerState) (clientId : Option Nat)
    (rpc : Option RpcRequest) : RpcResponse × ServerState :=
  match rpc with
  | none =>
    ({ status := 400, id := none, result := none,
       error := some { code := -32600, message := "Invalid Request" } }, st)
  | some r =>
    if r.jsonrpc ≠ "2.0" ∨ r.method = "" then
      ({ status := 400, id := r.id, result := none,
         error := some { code := -32600, message := "Invalid Request" } }, st)
    else if r.method = "initialize" then
      ({ status := 200, id := r.id, result := some .initRes, error := none }, st)
    else if r.method = "tools/list" then
      ({ status := 200, id := r.id, result := some .toolsListRes, error := none }, st)
    else if r.method = "tools/call" then
      match r.paramsName with
      | none =>
        ({ status := 200, id := r.id, result := none,
           error := some { code := -32602, message := "Missing tool name" } }, st)
      | some name =>
        if name = "" then
          ({ status := 200, id := r.id, result := none,
             error := some { code := -32602, message := "Missing tool name" } }, st)
        else
          match executeTool st name r.paramsArgFilename r.paramsArgInstructions with
          | .ok (resultObj, st1) =>
            ({ status := 200, id := r.id, result := some (.toolCallContent resultObj),
               error := none }, notifyOrigin st1 clientId name)
          | .error msg =>
            ({ status := 500, id := r.id, result := none,
               error := some { code := -32000,
                               message := if msg = "" then "Server error" else msg } }, st)
    else
      ({ status := 200, id := r.id, result := none,
         error := some { code := -32601, message := "Method not found: " ++ r.method } }, st)

/-! ## Process-level event traces (reachable states) -/

/-- The externally triggered events that mutate the module state during one
process lifetime. -/
inductive Ev where
  | openCh (now : Nat) (writeOk : Bool)
  | disconnect (cid t : Nat)
  | rpc (clientId : Option Nat) (req : Option RpcRequest)
  | restDelete (filename : String)
  | upload (newFiles : List (Path × Nat))
deriving Repr

/-- One step of the event-loop: dispatch an event against the state. -/
def stepEv (st : ServerState) : Ev → ServerState
  | .openCh now ok => (openChannel st now ok).2
  | .disconnect cid t => disconnectEv st cid t
  | .rpc cid req => (handleMcpMessage st cid req).2
  | .restDelete fn =>
    match deleteFile st (some fn) with
    | .ok r => r.2
    | .error _ => st
  | .upload newFiles =>
    broadcastSSE { st with fs := st.fs ++ newFiles } "upload"
      (SSEData.upload newFiles.length)

/-- The state at process start: empty registry, empty uploads directory. -/
def initState : ServerState :=
  { uploadsDir := ["app", "uploads"], fs := [], sseClients := [],
    liveTimers := [], nextTimer := 0, handlers := [], events := [] }

/-- The state reached from process start by a trace of events. -/
def run (evs : List Ev) : ServerState :=
  evs.foldl stepEv initState

/-- The `Date.now()` timestamps of the open-channel requests in a trace. -/
def openTimes : List Ev → List Nat
  | [] => []
  | .openCh now _ :: rest => now :: openTimes rest
  | _ :: rest => openTimes rest

/-! ## Registry invariants -/

/-- The client ids currently registered. -/
def keysOf (st : ServerState) : List Nat :=
  st.sseClients.map Prod.fst

/-- The heartbeat-timer handles referenced by registry entries. -/
def timersOf (st : ServerState) : List Nat :=
  st.sseClients.map (fun p => p.2.timer)

/-- The registry/timer invariant the spec asserts: unique client ids, each
registered channel holding exactly one live heartbeat timer (live, and not
shared with any other channel), and no live timer left unreferenced by the
registry (no orphans). -/
structure RegistryInv (st : ServerState) : Prop where
  keysNodup : (keysOf st).Nodup
  timersLive : ∀ p ∈ st.sseClients, p.2.timer ∈ st.liveTimers
  timersNodup : (timersOf st).Nodup
  liveNodup : st.liveTimers.Nodup
  noOrphans : ∀ t ∈ st.liveTimers, ∃ p ∈ st.sseClients, p.2.timer = t

/-- The registry-affecting fields of the state, bundled so that preservation
lemmas are single equations. -/
def regFields (st : ServerState) :
    List (Nat × Client) × List Nat × List (Nat × Nat) × Nat :=
  (st.sseClients, st.liveTimers, st.handlers, st.nextTimer)

/-! ## Characterizing `broadcastSSE`

Since `sendSSE` swallows write errors, `broadcastClient` never takes its
pruning branch: a broadcast only appends one event per registered client whose
transport accepts writes, and touches nothing else. -/

theorem broadcastClient_eq (acc : ServerState) (cid : Nat) (c : Client)
    (e : String) (d : SSEData) :
    broadcastClient acc cid c e d =
      if c.writeOk then { acc with events := acc.events ++ [(cid, e, d)] }
      else acc := by
  rcases c with ⟨t, w⟩
  cases w <;> simp [broadcastClient, sendSSE, resWrite]

theorem broadcastSSE_foldl (e : String) (d : SSEData) :
    ∀ (l : List (Nat × Client)) (acc : ServerState),
      l.foldl (fun a p => broadcastClient a p.1 p.2 e d) acc =
        { acc with events :=
            acc.events ++ (l.filter (fun p => p.2.writeOk)).map (fun p => (p.1, e, d)) }
  | [], acc => by simp
  | p :: tl, acc => by
    rw [List.foldl_cons, broadcastClient_eq]
    by_cases hw : p.2.writeOk
    · rw [if_pos hw, broadcastSSE_foldl e d tl]
      simp [hw]
    · rw [if_neg hw, broadcastSSE_foldl e d tl]
      simp [hw]

/-- The events appended by a broadcast: one per registered client whose
transport accepts writes. -/
def broadcastLog (st : ServerState) (e : String) (d : SSEData) : List SSEEvent :=
  (st.sseClients.filter (fun p => p.2.writeOk)).map (fun p => (p.1, e, d))

theorem broadcastSSE_eq (st : ServerState) (e : String) (d : SSEData) :
    broadcastSSE st e d = { st with events := st.events ++ broadcastLog st e d } :=
  broadcastSSE_foldl e d st.sseClients st

theorem sendToClient_events_only (st : ServerState) (cid : Nat) (e : String)
    (d : SSEData) :
    regFields (sendToClient st cid e d) = regFields st ∧
      (sendToClient st cid e d).fs = st.fs ∧
      (sendToClient st cid e d).uploadsDir = st.uploadsDir := by
  unfold sendToClient
  split
  · exact ⟨rfl, rfl, rfl⟩
  · split
    · exact ⟨rfl, rfl, rfl⟩
    · exact ⟨rfl, rfl, rfl⟩

theorem notifyOrigin_events_only (st : ServerState) (cid : Option Nat)
    (tool : String) :
    regFields (notifyOrigin st cid tool) = regFields st ∧
      (notifyOrigin st cid tool).fs = st.fs ∧
      (notifyOrigin st cid tool).uploadsDir = st.uploadsDir := by
  unfold notifyOrigin
  split
  · exact ⟨rfl, rfl, rfl⟩
  · split
    · exact sendToClient_events_only _ _ _ _
    · exact ⟨rfl, rfl, rfl⟩

theorem deleteFile_regFields (st : ServerState) (fn : Option String)
    (msg : String) (st' : ServerState)
    (h : deleteFile st fn = .ok (msg, st')) :
    regFields st' = regFields st ∧ st'.uploadsDir = st.uploadsDir := by
  unfold deleteFile at h
  rcases fn with _ | fn
  · exact absurd h (by simp)
  · simp only at h
    split at h
    · exact absurd h (by simp)
    · split at h
      · rw [Except.ok.injEq, Prod.mk.injEq] at h
        rw [← h.2, broadcastSSE_eq]
        exact ⟨rfl, rfl⟩
      · exact absurd h (by simp)

theorem executeTool_regFields (st : ServerState) (name : String)
    (fnArg insArg : Option String) (r : ToolResult) (st' : ServerState)
    (h : executeTool st name fnArg insArg = .ok (r, st')) :
    regFields st' = regFields st := by
  unfold executeTool at h
  split_ifs at h
  · rw [Except.ok.injEq, Prod.mk.injEq] at h
    rw [← h.2]
  · rcases hd : deleteFile st fnArg with _ | ⟨m, s⟩ <;> rw [hd] at h
    · exact absurd h (by simp [Except.map])
    · simp only [Except.map, Except.ok.injEq, Prod.mk.injEq] at h
      rw [← h.2]
      exact (deleteFile_regFields st fnArg m s hd).1
  · rw [Except.ok.injEq, Prod.mk.injEq] at h
    rw [← h.2]

theorem handleMcpMessage_regFields (st : ServerState) (cid : Option Nat)
    (rpc : Option RpcRequest) :
    regFields (handleMcpMessage st cid rpc).2 = regFields st := by
  rcases rpc with _ | r
  · rfl
  · simp only [handleMcpMessage]
    split_ifs <;> try rfl
    split
    · rfl
    · split
      · rfl
      · split
        · rename_i resultObj st1 h
          rw [(notifyOrigin_events_only st1 cid _).1]
          exact executeTool_regFields st _ _ _ _ _ h
        · rfl

/-! ## Claim C1 — write failure during send/broadcast

The spec demands that a transport write failure during `send`/`broadcast`
close the failing channel (cancel its heartbeat, remove its registry entry).
`broadcastSSE` indeed contains exactly that pruning code in its `catch`
branch — but `sendSSE` catches the write error itself and returns normally,
so the pruning branch can never execute.  The state below has one registered
channel whose transport rejects writes; broadcasting to it leaves the state
completely unchanged: no error propagates (that half of the claim holds), but
the channel also stays registered with its heartbeat timer live. -/

/-- A state with a single registered channel whose `res.write` throws. -/
def c1State : ServerState :=
  { uploadsDir := ["app", "uploads"], fs := [],
    sseClients := [(5, { timer := 0, writeOk := false })],
    liveTimers := [0], nextTimer := 1, handlers := [(5, 0)], events := [] }

/-- Claim C1 (code bug): when a channel's transport write fails during a
broadcast, `sendSSE` swallows the exception (`threw = false`), so
`broadcastSSE` leaves the failing channel registered and its heartbeat timer
live instead of closing it — the dead pruning branch of `broadcastSSE`
notwithstanding.  The write error is indeed not propagated (the broadcast
returns normally), but the self-healing half of the claim fails on the code. -/
theorem c1_write_failure_channel_not_closed :
    (sendSSE false).threw = false ∧
    broadcastSSE c1State "file_deleted" (SSEData.fileDeleted "report.pdf") = c1State ∧
    (5, ({ timer := 0, writeOk := false } : Client)) ∈
      (broadcastSSE c1State "file_deleted" (SSEData.fileDeleted "report.pdf")).sseClients ∧
    0 ∈ (broadcastSSE c1State "file_deleted" (SSEData.fileDeleted "report.pdf")).liveTimers := by
  refine ⟨by decide, by decide, by decide, by decide⟩

/-! ## Claim C2 — uniqueness of channel identifiers

`openChannel` assigns `clientId = Date.now()`: the identifier is exactly the
request's millisecond timestamp.  Two open requests accepted within the same
millisecond therefore receive the *same* identifier (and the second `Map.set`
overwrites the first registry entry), refuting the claim; identifiers are
distinct exactly when the timestamps differ. -/

/-- Claim C2 counterexample: two open-channel requests accepted at the same
millisecond timestamp (`Date.now() = 5`) are assigned the same identifier,
and after both, the registry holds a single entry (the first was
overwritten). -/
theorem c2_counterexample_same_millisecond :
    (openChannel initState 5 true).1 =
      (openChannel (openChannel initState 5 true).2 5 true).1 ∧
    (run [.openCh 5 true, .openCh 5 true]).sseClients.length = 1 := by
  refine ⟨by decide, by decide⟩

/-- Claim C2 (amended): the identifier assigned to an open-channel request is
its `Date.now()` timestamp, so two open requests are assigned distinct
identifiers whenever their millisecond timestamps differ (two requests within
the same millisecond collide). -/
theorem c2_amended_distinct_timestamps (st st' : ServerState) (n m : Nat)
    (ok ok' : Bool) (h : n ≠ m) :
    (openChannel st n ok).1 = n ∧ (openChannel st' m ok').1 = m ∧
    (openChannel st n ok).1 ≠ (openChannel st' m ok').1 := by
  exact ⟨rfl, rfl, h⟩

/-- Witness for `c2_amended_distinct_timestamps` at timestamps 1 and 2. -/
theorem c2_amended_distinct_timestamps_witness :
    (1 : Nat) ≠ 2 ∧
    ((openChannel initState 1 true).1 = 1 ∧ (openChannel initState 2 true).1 = 2 ∧
      (openChannel initState 1 true).1 ≠ (openChannel initState 2 true).1) :=
  ⟨by decide, c2_amended_distinct_timestamps initState initState 1 2 true true (by decide)⟩

/-- A well-formed `tools/call` request body with the given id, tool name and
`arguments` fields. -/
def toolCallReq (i : Option Int) (name : Option String)
    (fnArg insArg : Option String) : RpcRequest :=
  { jsonrpc := "2.0", id := i, method := "tools/call", paramsName := name,
    paramsArgFilename := fnArg, paramsArgInstructions := insArg }

/-! ## Claim C4 — every dispatch response has exactly one of result/error -/

/-- Claim C4: for every JSON-RPC dispatch request (any body, any originating
channel, any server state), the response produced by `handleMcpMessage`
carries exactly one of `result` and `error` — across the invalid-envelope,
`initialize`, `tools/list`, `tools/call` (success, missing tool name, executor
failure) and unknown-method branches. -/
theorem c4_exactly_one_of_result_error (st : ServerState) (cid : Option Nat)
    (rpc : Option RpcRequest) :
    ((handleMcpMessage st cid rpc).1.result.isSome ↔
      (handleMcpMessage st cid rpc).1.error.isNone) := by
  rcases rpc with _ | r
  · simp [handleMcpMessage]
  · simp only [handleMcpMessage]
    split_ifs <;> try simp
    split
    · simp
    · split
      · simp
      · split <;> simp

/-! ## Claim C7 — unknown tool names -/

theorem append_ne_empty_left (a b : String) (h : a.length ≠ 0) : a ++ b ≠ "" := by
  intro hab
  have h2 := congrArg String.length hab
  rw [String.length_append] at h2
  simp at h2
  exact absurd h2.1 h

/-- Claim C7: a `tools/call` request carrying a (present, non-empty) tool name
that is none of `upload_file`, `list_files`, `delete_file` is answered with an
error whose message is `"Unknown tool: {name}"`, and the server state —
storage included — is completely unchanged.  (A missing or empty name takes
the separate "Missing tool name" branch instead.) -/
theorem c7_unknown_tool (st : ServerState) (cid : Option Nat) (i : Option Int)
    (n : String) (fnArg insArg : Option String) (hne : n ≠ "")
    (h1 : n ≠ "upload_file") (h2 : n ≠ "list_files") (h3 : n ≠ "delete_file") :
    handleMcpMessage st cid (some (toolCallReq i (some n) fnArg insArg))
      = ({ status := 500, id := i, result := none,
           error := some { code := -32000, message := "Unknown tool: " ++ n } }, st) := by
  have hmsg : ("Unknown tool: " ++ n) ≠ "" :=
    append_ne_empty_left "Unknown tool: " n (by decide)
  simp [handleMcpMessage, toolCallReq, executeTool, hne, h1, h2, h3, hmsg]

/-- Witness for `c7_unknown_tool`: calling the unregistered tool
`"frobnicate"` on the initial state. -/
theorem c7_unknown_tool_witness :
    (("frobnicate" : String) ≠ "" ∧ ("frobnicate" : String) ≠ "upload_file" ∧
      ("frobnicate" : String) ≠ "list_files" ∧ ("frobnicate" : String) ≠ "delete_file") ∧
    handleMcpMessage initState (some 7) (some (toolCallReq (some 1) (some "frobnicate") none none))
      = ({ status := 500, id := some 1, result := none,
           error := some { code := -32000, message := "Unknown tool: " ++ "frobnicate" } },
         initState) :=
  ⟨⟨by decide, by decide, by decide, by decide⟩,
    c7_unknown_tool initState (some 7) (some 1) "frobnicate" none none
      (by decide) (by decide) (by decide) (by decide)⟩

/-! ## Claim C8 — `delete_file` with a missing or empty filename -/

/-- Claim C8: a `tools/call` of `delete_file` whose `filename` argument is
absent or the empty string is answered with the structured error
`"filename is required"` (code `-32000`), the state unchanged — the throw is
caught at the dispatch boundary, never an unhandled fault (the dispatcher is a
total function producing a structured response). -/
theorem c8_filename_required (st : ServerState) (cid : Option Nat)
    (i : Option Int) (fnArg insArg : Option String)
    (h : fnArg = none ∨ fnArg = some "") :
    handleMcpMessage st cid (some (toolCallReq i (some "delete_file") fnArg insArg))
      = ({ status := 500, id := i, result := none,
           error := some { code := -32000, message := "filename is required" } }, st) := by
  rcases h with h | h <;> subst h <;>
    simp [handleMcpMessage, toolCallReq, executeTool, deleteFile, Except.map]

/-- Witness for `c8_filename_required`: `delete_file` with no arguments. -/
theorem c8_filename_required_witness :
    ((none : Option String) = none ∨ (none : Option String) = some "") ∧
    handleMcpMessage initState none (some (toolCallReq (some 2) (some "delete_file") none none))
      = ({ status := 500, id := some 2, result := none,
           error := some { code := -32000, message := "filename is required" } },
         initState) :=
  ⟨Or.inl rfl,
    c8_filename_required initState none (some 2) none none (Or.inl rfl)⟩

/-! ## Claim C6 — `delete_file` of a filename naming no storage entry

The claim quantifies over every filename that names no entry in storage (the
uploads directory listing).  It fails on the code: `deleteFile` checks
existence of `path.join(uploadsDir, filename)`, so a traversal filename such
as `"../secret.txt"` — which names no entry in storage — resolves to an
existing file *outside* the storage directory and is deleted with a success
result and a broadcast instead of a `"File not found"` error.  (The empty
filename, which also names no entry, takes the `"filename is required"`
branch.)  The claim holds once restricted to non-empty filenames whose joined
path does not exist on the filesystem. -/

/-- A state whose uploads directory is empty but whose filesystem has a file
`/app/secret.txt` just outside it, with one connected SSE client. -/
def c6State : ServerState :=
  { uploadsDir := ["app", "uploads"], fs := [(["app", "secret.txt"], 7)],
    sseClients := [(9, { timer := 0, writeOk := true })],
    liveTimers := [0], nextTimer := 1, handlers := [(9, 0)], events := [] }

/-- Claim C6 counterexample: `"../secret.txt"` names no entry in storage
(`listFiles` lists nothing), yet `deleteFile` succeeds — no "File not found"
error — removing `/app/secret.txt` from the filesystem and broadcasting one
`file_deleted` event; and the empty filename (also naming no entry) yields
`"filename is required"`, not `"File not found"`. -/
theorem c6_counterexample_traversal_not_an_error :
    "../secret.txt" ∉ (listFiles c6State).files.map FileEntry.name ∧
    (deleteFile c6State (some "../secret.txt")).isOk = true ∧
    (deleteFile c6State (some "../secret.txt")).toOption.map
        (fun r => (r.2.fs, r.2.events)) =
      some ([], [(9, "file_deleted", SSEData.fileDeleted "../secret.txt")]) ∧
    deleteFile c6State (some "") = .error "filename is required" := by
  refine ⟨by decide, by decide, by decide, by rfl⟩

/-- Claim C6 (amended): for every `delete_file` call whose filename is
non-empty and whose `path.join`-resolved target does not exist on the
filesystem, the response is the structured error `"File not found"` and the
server state — the stored files in particular — is unchanged, with no
broadcast sent. -/
theorem c6_amended_delete_nonexistent (st : ServerState) (cid : Option Nat)
    (i : Option Int) (fn : String) (insArg : Option String) (h0 : fn ≠ "")
    (hnx : ∀ e ∈ st.fs, e.1 ≠ joinPath st.uploadsDir fn) :
    handleMcpMessage st cid (some (toolCallReq i (some "delete_file") (some fn) insArg))
      = ({ status := 500, id := i, result := none,
           error := some { code := -32000, message := "File not found" } }, st) := by
  have hany : (st.fs.any fun e => e.1 = joinPath st.uploadsDir fn) = false := by
    rw [List.any_eq_false]
    intro e he
    simpa using hnx e he
  simp [handleMcpMessage, toolCallReq, executeTool, deleteFile, Except.map, h0, hany]

/-- Witness for `c6_amended_delete_nonexistent`: deleting `"missing.txt"`
against empty storage. -/
theorem c6_amended_delete_nonexistent_witness :
    (("missing.txt" : String) ≠ "" ∧
      (∀ e ∈ initState.fs, e.1 ≠ joinPath initState.uploadsDir "missing.txt")) ∧
    handleMcpMessage initState none (some (toolCallReq (some 1) (some "delete_file") (some "missing.txt") none))
      = ({ status := 500, id := some 1, result := none,
           error := some { code := -32000, message := "File not found" } },
         initState) :=
  ⟨⟨by decide, by decide⟩,
    c6_amended_delete_nonexistent initState none (some 1) "missing.txt" none
      (by decide) (by decide)⟩

/-! ## Claim C10 — path traversal in `deleteFile` -/

/-- A state whose filesystem holds `/app/secret.txt` outside the uploads
directory `/app/uploads`, and one stored file `a.txt` inside it. -/
def c10State : ServerState :=
  { uploadsDir := ["app", "uploads"],
    fs := [(["app", "secret.txt"], 7), (["app", "uploads", "a.txt"], 3)],
    sseClients := [], liveTimers := [], nextTimer := 0, handlers := [], events := [] }

/-- Claim C10: `deleteFile` targets whatever `path.join(uploadsDir, filename)`
resolves to, with no containment check — for the filename `"../secret.txt"`
(containing a `".."` segment) the resolved target lies outside the uploads
directory, the target exists, and the call deletes that outside file and
reports success. -/
theorem c10_delete_escapes_uploads_dir :
    ∃ fn : String, ".." ∈ splitPath fn ∧
      isUnder c10State.uploadsDir (joinPath c10State.uploadsDir fn) = false ∧
      joinPath c10State.uploadsDir fn ∈ c10State.fs.map Prod.fst ∧
      (deleteFile c10State (some fn)).toOption.map (fun r => r.2.fs)
        = some [(["app", "uploads", "a.txt"], 3)] := by
  refine ⟨"../secret.txt", by decide, by decide, by decide, by decide⟩

/-! ## Claim C5 — `delete_file` of an existing stored file -/

theorem childName_eq_some (dir p : Path) (n : String) :
    childName dir p = some n ↔ p = dir ++ [n] := by
  constructor
  · intro h
    unfold childName at h
    split at h
    · exact absurd h (by simp)
    · rename_i m hl
      split at h
      · rename_i hdrop
        rw [Option.some.injEq] at h
        subst h
        rcases List.eq_nil_or_concat p with hnil | ⟨l', a, hp⟩
        · subst hnil
          simp at hl
        · subst hp
          rw [List.concat_eq_append] at hl hdrop ⊢
          rw [List.getLast?_concat, Option.some.injEq] at hl
          rw [List.dropLast_concat] at hdrop
          rw [← hdrop, ← hl]
      · exact absurd h (by simp)
  · intro h
    subst h
    unfold childName
    rw [List.getLast?_concat]
    simp [List.dropLast_concat]

/-- For a plain file name (a single segment that is not empty, `"."` or
`".."`), `path.join` just appends it to the directory. -/
theorem joinPath_single (dir : Path) (fn : String) (hseg : splitPath fn = [fn])
    (h0 : fn ≠ "") (h1 : fn ≠ ".") (h2 : fn ≠ "..") :
    joinPath dir fn = dir ++ [fn] := by
  unfold joinPath
  rw [hseg]
  simp [applySeg, h0, h1, h2]

/-- The per-channel slice of a broadcast log: with unique registry keys, the
channel `cid` (registered, transport healthy) gets exactly its one event. -/
theorem broadcastLog_filter_cid (cid : Nat) (c : Client) (e : String)
    (d : SSEData) :
    ∀ l : List (Nat × Client), (l.map Prod.fst).Nodup → (cid, c) ∈ l →
      c.writeOk = true →
      ((l.filter (fun p => p.2.writeOk)).map (fun p => (p.1, e, d))).filter
          (fun ev => ev.1 = cid) = [(cid, e, d)]
  | [], _, hm, _ => absurd hm (by simp)
  | x :: tl, hnd, hm, hok => by
    rw [List.map_cons, List.nodup_cons] at hnd
    rcases List.mem_cons.mp hm with hx | htl
    · subst hx
      have hnil : ((tl.filter (fun p => p.2.writeOk)).map
          (fun p => (p.1, e, d))).filter (fun ev => ev.1 = cid) = [] := by
        rw [List.filter_eq_nil_iff]
        intro ev hev
        obtain ⟨q, hq, rfl⟩ := List.mem_map.mp hev
        have hq' := (List.mem_filter.mp hq).1
        simp only [decide_eq_true_eq]
        intro hc
        exact hnd.1 (List.mem_map.mpr ⟨q, hq', hc⟩)
      simp [List.filter_cons, hok, hnil]
    · have hxc : x.1 ≠ cid := by
        intro hc
        apply hnd.1
        rw [hc]
        exact List.mem_map.mpr ⟨(cid, c), htl, rfl⟩
      have ih := broadcastLog_filter_cid cid c e d tl hnd.2 htl hok
      by_cases hw : x.2.writeOk <;> simp [List.filter_cons, hw, hxc, ih]

/-- Claim C5: deleting an existing stored file (a plain name listed by
`listFiles`) succeeds; afterwards the file is absent from `listFiles`'s
output, and the events delivered during the call to each channel that was
open (registered, transport accepting writes) at call time are exactly one
`file_deleted` notification carrying that filename. -/
theorem c5_delete_existing_file (st : ServerState) (fn : String)
    (hseg : splitPath fn = [fn]) (h0 : fn ≠ "") (h1 : fn ≠ ".") (h2 : fn ≠ "..")
    (hkeys : (keysOf st).Nodup)
    (hmem : fn ∈ (listFiles st).files.map FileEntry.name) :
    ∃ st', deleteFile st (some fn)
        = .ok ("File " ++ fn ++ " deleted successfully", st') ∧
      fn ∉ (listFiles st').files.map FileEntry.name ∧
      ∀ cid c, (cid, c) ∈ st.sseClients → c.writeOk = true →
        (st'.events.drop st.events.length).filter (fun ev => ev.1 = cid)
          = [(cid, "file_deleted", SSEData.fileDeleted fn)] := by
  have hjoin := joinPath_single st.uploadsDir fn hseg h0 h1 h2
  obtain ⟨e, he, hpath⟩ : ∃ e ∈ st.fs, e.1 = st.uploadsDir ++ [fn] := by
    simp only [listFiles, List.mem_map, List.mem_filterMap] at hmem
    obtain ⟨entry, ⟨e, he, hme⟩, hname⟩ := hmem
    rcases hcn : childName st.uploadsDir e.1 with _ | n <;> rw [hcn] at hme
    · exact absurd hme (by simp)
    · rw [Option.map_some', Option.some.injEq] at hme
      refine ⟨e, he, ?_⟩
      have hn : n = fn := by rw [← hme] at hname; exact hname
      rw [← hn]
      exact (childName_eq_some _ _ _).mp hcn
  have hany : (st.fs.any fun x => x.1 = joinPath st.uploadsDir fn) = true := by
    rw [List.any_eq_true]
    exact ⟨e, he, by simp [hjoin, hpath]⟩
  refine ⟨broadcastSSE
      { st with fs := st.fs.filter (fun x => x.1 ≠ joinPath st.uploadsDir fn) }
      "file_deleted" (SSEData.fileDeleted fn), ?_, ?_, ?_⟩
  · simp [deleteFile, h0, hany]
  · simp only [broadcastSSE_eq]
    intro hcontra
    simp only [listFiles, List.mem_map, List.mem_filterMap] at hcontra
    obtain ⟨entry, ⟨e', he', hme⟩, hname⟩ := hcontra
    rcases hcn : childName st.uploadsDir e'.1 with _ | n <;> rw [hcn] at hme
    · exact absurd hme (by simp)
    · rw [Option.map_some', Option.some.injEq] at hme
      have hn : n = fn := by rw [← hme] at hname; exact hname
      subst hn
      have he'1 : e'.1 = st.uploadsDir ++ [n] := (childName_eq_some _ _ _).mp hcn
      have := (List.mem_filter.mp he').2
      rw [he'1, hjoin] at this
      simp at this
  · intro cid c hc hok
    simp only [broadcastSSE_eq, broadcastLog]
    rw [List.drop_left]
    exact broadcastLog_filter_cid cid c "file_deleted" (SSEData.fileDeleted fn)
      st.sseClients hkeys hc hok

/-- Witness for `c5_delete_existing_file`: one stored file `a.txt` and one
connected client. -/
def c5State : ServerState :=
  { uploadsDir := ["app", "uploads"], fs := [(["app", "uploads", "a.txt"], 3)],
    sseClients := [(7, { timer := 0, writeOk := true })],
    liveTimers := [0], nextTimer := 1, handlers := [(7, 0)], events := [] }

theorem c5_delete_existing_file_witness :
    (splitPath "a.txt" = ["a.txt"] ∧ ("a.txt" : String) ≠ "" ∧
      ("a.txt" : String) ≠ "." ∧ ("a.txt" : String) ≠ ".." ∧
      (keysOf c5State).Nodup ∧
      "a.txt" ∈ (listFiles c5State).files.map FileEntry.name) ∧
    (∃ st', deleteFile c5State (some "a.txt")
        = .ok ("File " ++ "a.txt" ++ " deleted successfully", st') ∧
      "a.txt" ∉ (listFiles st').files.map FileEntry.name ∧
      ∀ cid c, (cid, c) ∈ c5State.sseClients → c.writeOk = true →
        (st'.events.drop c5State.events.length).filter (fun ev => ev.1 = cid)
          = [(cid, "file_deleted", SSEData.fileDeleted "a.txt")]) :=
  ⟨⟨by decide, by decide, by decide, by decide, by decide, by decide⟩,
    c5_delete_existing_file c5State "a.txt" (by decide) (by decide) (by decide)
      (by decide) (by decide) (by decide)⟩

/-! ## Claim C9 — `sizeFormatted` strings -/

theorem unitIndexAux_spec : ∀ (fuel b : Nat), 0 < b → b ≤ fuel →
    1024 ^ unitIndexAux fuel b ≤ b ∧ b < 1024 ^ (unitIndexAux fuel b + 1)
  | 0, b => by
    intro h1 h2
    exact absurd h1 (by omega)
  | fuel + 1, b => by
    intro h1 h2
    unfold unitIndexAux
    by_cases hb : b < 1024
    · rw [if_pos hb]
      constructor
      · simpa using h1
      · simpa using hb
    · rw [if_neg hb]
      have hd1 : 0 < b / 1024 := Nat.div_pos (le_of_not_lt hb) (by norm_num)
      have hd2 : b / 1024 ≤ fuel := by
        have := Nat.div_lt_self h1 (show 1 < 1024 by norm_num)
        omega
      obtain ⟨ha, hb2⟩ := unitIndexAux_spec fuel (b / 1024) hd1 hd2
      constructor
      · rw [pow_succ]
        calc 1024 ^ unitIndexAux fuel (b / 1024) * 1024
            ≤ b / 1024 * 1024 := Nat.mul_le_mul_right _ ha
          _ ≤ b := Nat.div_mul_le_self b 1024
      · rw [pow_succ]
        exact (Nat.div_lt_iff_lt_mul (by norm_num)).mp hb2

/-- For positive `bytes`, `unitIndex` (the embedding of
`Math.floor(Math.log(bytes)/Math.log(1024))`) is the unit index the spec
describes: the number of times `bytes` can be divided by 1024 before the
value drops below 1024. -/
theorem unitIndex_bracket (b : Nat) (h : 0 < b) :
    1024 ^ unitIndex b ≤ b ∧ b < 1024 ^ (unitIndex b + 1) :=
  unitIndexAux_spec b b h le_rfl

/-- Claim C9: for every positive byte count below 1024⁴ (every storable file:
uploads are capped at 50 MB), `formatFileSize` renders the byte count divided
by 1024 `i` times — `i` the unique index with `1024^i ≤ bytes < 1024^(i+1)`,
i.e. chosen by repeated division by 1024 — rounded to two decimals, with the
matching unit among `Bytes`/`KB`/`MB`/`GB`; in particular 1000 bytes render
as `"1000 Bytes"` and 2 097 152 bytes as `"2 MB"`. -/
theorem c9_sizeFormatted_characterization :
    (∀ bytes : Nat, 0 < bytes → bytes < 1024 ^ 4 →
      ∃ i, 1024 ^ i ≤ bytes ∧ bytes < 1024 ^ (i + 1) ∧ i < 4 ∧
        formatFileSize bytes
          = renderCenti (jsRoundNat (bytes * 100) (1024 ^ i)) ++ " " ++ sizesArr.getD i "undefined")
    ∧ formatFileSize 1000 = "1000 Bytes" ∧ formatFileSize 2097152 = "2 MB" := by
  refine ⟨?_, by decide, by decide⟩
  intro bytes hpos hlt
  obtain ⟨hle, hub⟩ := unitIndex_bracket bytes hpos
  refine ⟨unitIndex bytes, hle, hub, ?_, ?_⟩
  · by_contra hge
    push_neg at hge
    have := Nat.pow_le_pow_right (show 0 < 1024 by norm_num) hge
    omega
  · have hne : bytes ≠ 0 := by omega
    simp [formatFileSize, hne]

/-- Witness for `c9_sizeFormatted_characterization` at 5000 bytes. -/
theorem c9_sizeFormatted_characterization_witness :
    ((0 : Nat) < 5000 ∧ (5000 : Nat) < 1024 ^ 4) ∧
    (∃ i, 1024 ^ i ≤ 5000 ∧ 5000 < 1024 ^ (i + 1) ∧ i < 4 ∧
      formatFileSize 5000
        = renderCenti (jsRoundNat (5000 * 100) (1024 ^ i)) ++ " " ++ sizesArr.getD i "undefined") :=
  ⟨⟨by decide, by decide⟩,
    c9_sizeFormatted_characterization.1 5000 (by decide) (by decide)⟩

/-! ## Claim C3 — heartbeat timers in reachable states

The inductive invariant `FullInv` strengthens `RegistryInv` with the
bookkeeping facts needed to push it across every event: the close handlers
mirror the registry, new timer handles are fresh, and every registered key
came from a past open request. -/

/-- The full inductive invariant, parametrized by the set `used` of
timestamps of past open requests. -/
structure FullInv (used : List Nat) (st : ServerState)
    extends RegistryInv st : Prop where
  handlersEq : st.handlers = st.sseClients.map (fun p => (p.1, p.2.timer))
  timersFresh : ∀ t ∈ st.liveTimers, t < st.nextTimer
  keysUsed : ∀ k ∈ keysOf st, k ∈ used

theorem regFields_broadcastSSE (st : ServerState) (e : String) (d : SSEData) :
    regFields (broadcastSSE st e d) = regFields st := by
  rw [broadcastSSE_eq]
  rfl

/-- An invariant only about registry fields transports along `regFields`
equality. -/
theorem FullInv_of_regFields_eq (u : List Nat) (st st' : ServerState)
    (h : regFields st' = regFields st) (hi : FullInv u st) : FullInv u st' := by
  simp only [regFields, Prod.mk.injEq] at h
  obtain ⟨h1, h2, h3, h4⟩ := h
  refine ⟨⟨?_, ?_, ?_, ?_, ?_⟩, ?_, ?_, ?_⟩
  · unfold keysOf
    rw [h1]
    exact hi.keysNodup
  · rw [h1, h2]
    exact hi.timersLive
  · unfold timersOf
    rw [h1]
    exact hi.timersNodup
  · rw [h2]
    exact hi.liveNodup
  · rw [h1, h2]
    exact hi.noOrphans
  · rw [h1, h3]
    exact hi.handlersEq
  · rw [h2, h4]
    exact hi.timersFresh
  · unfold keysOf
    rw [h1]
    exact hi.keysUsed

theorem mapSet_append (m : List (Nat × Client)) (k : Nat) (v : Client)
    (h : (m.any fun p => p.1 = k) = false) : mapSet m k v = m ++ [(k, v)] := by
  simp [mapSet, h]

/-- Opening a channel at a timestamp never used before preserves the
invariant (and records the timestamp). -/
theorem openChannel_inv (u : List Nat) (st : ServerState) (now : Nat)
    (ok : Bool) (hi : FullInv u st) (hnow : now ∉ u) :
    FullInv (now :: u) (openChannel st now ok).2 := by
  have hkey : (st.sseClients.any fun p => p.1 = now) = false := by
    rw [List.any_eq_false]
    intro p hp
    simp only [decide_eq_true_eq]
    intro hc
    exact hnow (hi.keysUsed now (hc ▸ List.mem_map.mpr ⟨p, hp, rfl⟩))
  have hfresh : ∀ q ∈ st.sseClients, q.2.timer ≠ st.nextTimer := by
    intro q hq
    exact Nat.ne_of_lt (hi.timersFresh _ (hi.timersLive q hq))
  have hfreshL : st.nextTimer ∉ st.liveTimers := by
    intro hmem
    exact absurd (hi.timersFresh _ hmem) (by omega)
  unfold openChannel
  simp only [mapSet_append st.sseClients now _ hkey]
  refine ⟨⟨?_, ?_, ?_, ?_, ?_⟩, ?_, ?_, ?_⟩
  · unfold keysOf
    simp only [List.map_append, List.map_cons, List.map_nil]
    rw [List.nodup_append]
    refine ⟨hi.keysNodup, by simp, ?_⟩
    rw [List.disjoint_singleton]
    intro hmem
    obtain ⟨p, hp, hp1⟩ := List.mem_map.mp hmem
    rw [List.any_eq_false] at hkey
    exact absurd (by simpa using hp1) (by simpa using hkey p hp)
  · intro p hp
    rcases List.mem_append.mp hp with hold | hnew
    · exact List.mem_append.mpr (Or.inl (hi.timersLive p hold))
    · simp only [List.mem_singleton] at hnew
      subst hnew
      simp
  · unfold timersOf
    simp only [List.map_append, List.map_cons, List.map_nil]
    rw [List.nodup_append]
    refine ⟨hi.timersNodup, by simp, ?_⟩
    rw [List.disjoint_singleton]
    intro hmem
    obtain ⟨p, hp, hp1⟩ := List.mem_map.mp hmem
    exact hfresh p hp hp1
  · rw [List.nodup_append]
    refine ⟨hi.liveNodup, by simp, ?_⟩
    rw [List.disjoint_singleton]
    exact hfreshL
  · intro t ht
    rcases List.mem_append.mp ht with hold | hnew
    · obtain ⟨p, hp, hpt⟩ := hi.noOrphans t hold
      exact ⟨p, List.mem_append.mpr (Or.inl hp), hpt⟩
    · simp only [List.mem_singleton] at hnew
      refine ⟨(now, { timer := st.nextTimer, writeOk := ok }), ?_, hnew.symm⟩
      simp
  · simp only [List.map_append, List.map_cons, List.map_nil]
    rw [hi.handlersEq]
  · intro t ht
    rcases List.mem_append.mp ht with hold | hnew
    · exact Nat.lt_succ_of_lt (hi.timersFresh t hold)
    · simp only [List.mem_singleton] at hnew
      show t < st.nextTimer + 1
      omega
  · intro k hk
    unfold keysOf at hk
    simp only [List.map_append, List.map_cons, List.map_nil] at hk
    rcases List.mem_append.mp hk with hold | hnew
    · exact List.mem_cons.mpr (Or.inr (hi.keysUsed k hold))
    · simp only [List.mem_singleton] at hnew
      exact List.mem_cons.mpr (Or.inl hnew)

theorem filter_map_pred {α β : Type} (f : α → β) (p : β → Bool) :
    ∀ l : List α, (l.map f).filter p = (l.filter (fun a => p (f a))).map f
  | [] => rfl
  | a :: tl => by
    rw [List.map_cons, List.filter_cons, List.filter_cons]
    by_cases h : p (f a) <;> simp [h, filter_map_pred f p tl]

/-- Firing a close handler preserves the invariant: the disconnecting
connection's timer is cleared together with its registry entry. -/
theorem disconnectEv_inv (u : List Nat) (st : ServerState) (cid t : Nat)
    (hi : FullInv u st) : FullInv u (disconnectEv st cid t) := by
  unfold disconnectEv
  split
  case isFalse => exact hi
  case isTrue hmem =>
    rw [hi.handlersEq] at hmem
    obtain ⟨q, hq, hfq⟩ := List.mem_map.mp hmem
    rw [Prod.mk.injEq] at hfq
    obtain ⟨hq1, hq2⟩ := hfq
    have keyInj := List.inj_on_of_nodup_map (f := Prod.fst) hi.keysNodup
    have timerInj := List.inj_on_of_nodup_map
      (f := fun p : Nat × Client => p.2.timer) hi.timersNodup
    refine ⟨⟨?_, ?_, ?_, ?_, ?_⟩, ?_, ?_, ?_⟩
    · unfold keysOf
      exact ((List.filter_sublist _).map Prod.fst).nodup hi.keysNodup
    · intro p hp
      obtain ⟨hpl, hpk⟩ := List.mem_filter.mp hp
      simp only [decide_eq_true_eq] at hpk
      rw [List.mem_filter]
      refine ⟨hi.timersLive p hpl, ?_⟩
      simp only [decide_eq_true_eq]
      intro hpt
      exact hpk (by rw [timerInj hpl hq (hpt.trans hq2.symm), hq1])
    · unfold timersOf
      exact ((List.filter_sublist _).map _).nodup hi.timersNodup
    · exact (List.filter_sublist _).nodup hi.liveNodup
    · intro t' ht'
      obtain ⟨htl, htne⟩ := List.mem_filter.mp ht'
      simp only [decide_eq_true_eq] at htne
      obtain ⟨p, hp, hpt⟩ := hi.noOrphans t' htl
      refine ⟨p, List.mem_filter.mpr ⟨hp, ?_⟩, hpt⟩
      simp only [decide_eq_true_eq]
      intro hpc
      exact htne (by rw [← hpt, keyInj hp hq (hpc.trans hq1.symm), hq2])
    · show List.filter (fun h => h ≠ (cid, t)) st.handlers
          = List.map (fun p => (p.1, p.2.timer))
              (List.filter (fun p => p.1 ≠ cid) st.sseClients)
      rw [hi.handlersEq, filter_map_pred]
      congr 1
      apply List.filter_congr
      intro p hp
      by_cases hpc : p.1 = cid
      · have hpq : p = q := keyInj hp hq (hpc.trans hq1.symm)
        simp [hpc, hpq, hq1, hq2]
      · simp [hpc, Prod.ext_iff]
    · intro t' ht'
      exact hi.timersFresh t' (List.mem_filter.mp ht').1
    · intro k hk
      unfold keysOf at hk
      obtain ⟨p, hp, hpk⟩ := List.mem_map.mp hk
      exact hi.keysUsed k (List.mem_map.mpr ⟨p, (List.mem_filter.mp hp).1, hpk⟩)

/-- Every event other than opening a channel either leaves the registry
fields untouched (RPC dispatch, REST delete, upload broadcast) or is a
disconnect, which has its own invariant lemma. -/
theorem regFields_stepEv_rpc (st : ServerState) (cid : Option Nat)
    (req : Option RpcRequest) :
    regFields (stepEv st (.rpc cid req)) = regFields st :=
  handleMcpMessage_regFields st cid req

theorem regFields_stepEv_restDelete (st : ServerState) (fn : String) :
    regFields (stepEv st (.restDelete fn)) = regFields st := by
  simp only [stepEv]
  split
  · rename_i r h
    exact (deleteFile_regFields st (some fn) r.1 r.2 (by rw [h])).1
  · rfl

theorem regFields_stepEv_upload (st : ServerState) (nf : List (Path × Nat)) :
    regFields (stepEv st (.upload nf)) = regFields st := by
  simp only [stepEv]
  rw [regFields_broadcastSSE]
  rfl

/-- The inductive core: from an invariant-satisfying state, any trace whose
open timestamps are fresh and pairwise distinct keeps the invariant. -/
theorem run_inv_aux : ∀ (evs : List Ev) (u : List Nat) (st : ServerState),
    FullInv u st → (openTimes evs).Nodup → (∀ x ∈ openTimes evs, x ∉ u) →
    ∃ u', FullInv u' (evs.foldl stepEv st)
  | [], u, _, hi, _, _ => ⟨u, hi⟩
  | ev :: rest, u, st, hi, hnd, hdis => by
    rw [List.foldl_cons]
    cases ev with
    | openCh now ok =>
      have hcons : openTimes (.openCh now ok :: rest) = now :: openTimes rest := rfl
      rw [hcons, List.nodup_cons] at hnd
      have hnow : now ∉ u := hdis now (by rw [hcons]; exact List.mem_cons_self _ _)
      refine run_inv_aux rest (now :: u) _
        (openChannel_inv u st now ok hi hnow) hnd.2 ?_
      intro x hx
      rw [List.mem_cons]
      push_neg
      constructor
      · intro hxe
        exact hnd.1 (hxe ▸ hx)
      · exact hdis x (by rw [hcons]; exact List.mem_cons.mpr (Or.inr hx))
    | disconnect cid t =>
      exact run_inv_aux rest u _ (disconnectEv_inv u st cid t hi) hnd hdis
    | rpc cid req =>
      exact run_inv_aux rest u _
        (FullInv_of_regFields_eq u st _ (regFields_stepEv_rpc st cid req) hi) hnd hdis
    | restDelete fn =>
      exact run_inv_aux rest u _
        (FullInv_of_regFields_eq u st _ (regFields_stepEv_restDelete st fn) hi) hnd hdis
    | upload nf =>
      exact run_inv_aux rest u _
        (FullInv_of_regFields_eq u st _ (regFields_stepEv_upload st nf) hi) hnd hdis

/-- When no live timer is orphaned, the SIGTERM handler clears every live
timer before the process exits. -/
theorem sigterm_clears (st : ServerState)
    (h : ∀ t ∈ st.liveTimers, ∃ p ∈ st.sseClients, p.2.timer = t) :
    (sigtermHandler st).liveTimers = [] := by
  unfold sigtermHandler
  rw [List.filter_eq_nil_iff]
  intro t ht
  obtain ⟨p, hp, hpt⟩ := h t ht
  simp only [decide_eq_true_eq, List.any_eq_true, not_not]
  exact ⟨p, hp, by simpa using hpt⟩

/-- Claim C3 counterexample: in the reachable state produced by two
open-channel requests during the same millisecond (`Date.now() = 5` twice),
the first connection's heartbeat timer (handle 0) is still live although no
registry entry references it — an orphaned timer: the second `Map.set`
overwrote the first entry without `clearInterval`. -/
theorem c3_counterexample_orphaned_timer :
    0 ∈ (run [.openCh 5 true, .openCh 5 true]).liveTimers ∧
    ∀ p ∈ (run [.openCh 5 true, .openCh 5 true]).sseClients, p.2.timer ≠ 0 := by
  refine ⟨by decide, by decide⟩

/-- Claim C3 (amended): in every state reachable by a trace whose
open-channel requests carry pairwise-distinct timestamps (so no identifier
collision occurs), the registry invariant holds — unique client ids, each
registered channel's single heartbeat timer live and unshared, no orphaned
timers — and destruction cancels timers: disconnects clear the channel's
timer (the invariant is preserved across them) and the graceful-shutdown
handler leaves no timer running. -/
theorem c3_amended_registry_inv (evs : List Ev)
    (hnd : (openTimes evs).Nodup) :
    RegistryInv (run evs) ∧ (sigtermHandler (run evs)).liveTimers = [] := by
  have hinit : FullInv [] initState := by
    refine ⟨⟨?_, ?_, ?_, ?_, ?_⟩, ?_, ?_, ?_⟩ <;>
      simp [initState, keysOf, timersOf]
  obtain ⟨u', hf⟩ := run_inv_aux evs [] initState hinit hnd (by simp)
  exact ⟨hf.toRegistryInv, sigterm_clears _ hf.noOrphans⟩

/-- Witness for `c3_amended_registry_inv`: two opens at distinct
timestamps. -/
theorem c3_amended_registry_inv_witness :
    (openTimes [Ev.openCh 3 true, Ev.openCh 7 true]).Nodup ∧
    (RegistryInv (run [Ev.openCh 3 true, Ev.openCh 7 true]) ∧
      (sigtermHandler (run [Ev.openCh 3 true, Ev.openCh 7 true])).liveTimers = []) :=
  ⟨by decide,
    c3_amended_registry_inv [Ev.openCh 3 true, Ev.openCh 7 true] (by decide)⟩

end MCP
